import Mathlib

/-!
Verification of the risclient library (src/lib.rs): a RIS Live websocket
client.  We embed the JSON wire format, the serde-derived encoders and
decoders of the request and response records, the subscribe handshake of
`RisClient.stream_custom`, and the decode-and-forward loop it spawns.

Modelling conventions:
  - JSON numbers are represented as rationals.  The source stores the
    timestamp in an `f32`; no claim involves floating-point rounding, only
    the default value 0.0 and pass-through of parsed values, so the exact
    rational value of the parsed literal is used.
  - `serde_json::from_str` is modelled in two stages: a text parser
    producing a JSON tree, then a struct deserializer over that tree.
    serde interleaves the two; the stages agree on every input that is
    not simultaneously truncated and ill-typed.
  - The parser mirrors the serde_json grammar: JSON whitespace is space,
    tab, line feed and carriage return; an end-of-input failure is the
    error whose `is_eof()` is true; every other parse failure and every
    deserialization failure (wrong type, missing field, duplicate field)
    has `is_eof()` false.
-/

/-- JSON values, as produced by the serde_json parser.  Object members keep
their textual order and possible duplicates; the struct deserializer deals
with duplicates itself, as serde does. -/
inductive Json where
  | null
  | bool (b : Bool)
  | num (q : ℚ)
  | str (s : String)
  | arr (elems : List Json)
  | obj (members : List (String × Json))

/-- Decode failures.  `eofErr` corresponds to serde_json errors whose
`is_eof()` is true (input ended while a value was incomplete); `synErr` to
every other syntax error; `dataErr` to data errors raised by the struct
deserializer (wrong type, missing field, duplicate field). -/
inductive JErr where
  | eofErr
  | synErr
  | dataErr
deriving DecidableEq

/-- JSON whitespace accepted by serde_json between tokens. -/
def isJsonWs (c : Char) : Bool :=
  if c = ' ' then true
  else if c = '\t' then true
  else if c = '\n' then true
  else if c = '\r' then true
  else false

/-- Drop leading JSON whitespace. -/
def skipWs : List Char → List Char
  | [] => []
  | c :: cs => if isJsonWs c then skipWs cs else c :: cs

/-- Expect the given literal characters (tail of `null`, `true`, `false`). -/
def expectChars : List Char → List Char → Except JErr (List Char)
  | [], rest => .ok rest
  | _ :: _, [] => .error .eofErr
  | e :: es, c :: cs => if c = e then expectChars es cs else .error .synErr

/-- Value of one hexadecimal digit. -/
def hexVal (c : Char) : Option Nat :=
  if c.isDigit then some (c.toNat - 48)
  else if 'a' ≤ c ∧ c ≤ 'f' then some (c.toNat - 87)
  else if 'A' ≤ c ∧ c ≤ 'F' then some (c.toNat - 55)
  else none

/-- Four hexadecimal digits of a \u escape. -/
def parseHex4 : List Char → Except JErr (Nat × List Char)
  | c1 :: c2 :: c3 :: c4 :: rest =>
    match hexVal c1, hexVal c2, hexVal c3, hexVal c4 with
    | some a, some b, some c, some d => .ok (((a * 16 + b) * 16 + c) * 16 + d, rest)
    | _, _, _, _ => .error .synErr
  | _ => .error .eofErr

/-- Body of a JSON string literal, after the opening quote.  Mirrors the
serde_json escape rules: the eight single-character escapes, \u with
surrogate-pair combination, rejection of lone surrogates and of raw
control characters.  Fuel decreases on every step; callers pass the length
of the remaining input plus one, which always suffices since every step
consumes at least one character. -/
def parseStringBody : Nat → List Char → List Char → Except JErr (String × List Char)
  | 0, _, _ => .error .synErr
  | _ + 1, _, [] => .error .eofErr
  | fuel + 1, acc, c :: rest =>
    if c = '"' then .ok (String.mk acc.reverse, rest)
    else if c = '\\' then
      match rest with
      | [] => .error .eofErr
      | e :: r2 =>
        if e = '"' then parseStringBody fuel ('"' :: acc) r2
        else if e = '\\' then parseStringBody fuel ('\\' :: acc) r2
        else if e = '/' then parseStringBody fuel ('/' :: acc) r2
        else if e = 'b' then parseStringBody fuel ('\x08' :: acc) r2
        else if e = 'f' then parseStringBody fuel ('\x0c' :: acc) r2
        else if e = 'n' then parseStringBody fuel ('\n' :: acc) r2
        else if e = 'r' then parseStringBody fuel ('\r' :: acc) r2
        else if e = 't' then parseStringBody fuel ('\t' :: acc) r2
        else if e = 'u' then
          match parseHex4 r2 with
          | .error e2 => .error e2
          | .ok (n, r3) =>
            if 0xD800 ≤ n ∧ n ≤ 0xDBFF then
              match r3 with
              | '\\' :: 'u' :: r4 =>
                match parseHex4 r4 with
                | .error e2 => .error e2
                | .ok (m, r5) =>
                  if 0xDC00 ≤ m ∧ m ≤ 0xDFFF then
                    parseStringBody fuel
                      (Char.ofNat (0x10000 + (n - 0xD800) * 0x400 + (m - 0xDC00)) :: acc) r5
                  else .error .synErr
              | [] => .error .eofErr
              | _ => .error .synErr
            else if 0xDC00 ≤ n ∧ n ≤ 0xDFFF then .error .synErr
            else parseStringBody fuel (Char.ofNat n :: acc) r2
        else .error .synErr
    else if c.toNat < 32 then .error .synErr
    else parseStringBody fuel (c :: acc) rest

/-- Longest leading run of decimal digits. -/
def takeDigits : List Char → List Char × List Char
  | [] => ([], [])
  | c :: rest =>
    if c.isDigit then
      let p := takeDigits rest
      (c :: p.1, p.2)
    else ([], c :: rest)

/-- Numeric value of a digit run. -/
def digitsToNat (ds : List Char) : Nat :=
  ds.foldl (fun acc c => acc * 10 + (c.toNat - 48)) 0

/-- Rational value of a parsed JSON number literal: sign, integer part,
fraction digits (value and count) and decimal exponent. -/
def mkNum (neg : Bool) (i f k : Nat) (e : ℤ) : ℚ :=
  (if neg then (-1 : ℚ) else 1) * ((i : ℚ) + (f : ℚ) / (10 : ℚ) ^ k) * (10 : ℚ) ^ e

/-- Exponent digits of a number literal, after `e` and an optional sign. -/
def parseExpDigits (neg : Bool) (i f k : Nat) (eneg : Bool) (cs : List Char) :
    Except JErr (ℚ × List Char) :=
  match cs with
  | [] => .error .eofErr
  | c :: _ =>
    if c.isDigit then
      let p := takeDigits cs
      .ok (mkNum neg i f k
        (if eneg then -(digitsToNat p.1 : ℤ) else (digitsToNat p.1 : ℤ)), p.2)
    else .error .synErr

/-- Optional exponent part of a number literal. -/
def parseExpPart (neg : Bool) (i f k : Nat) (cs : List Char) :
    Except JErr (ℚ × List Char) :=
  match cs with
  | [] => .ok (mkNum neg i f k 0, [])
  | c :: rest =>
    if c = 'e' ∨ c = 'E' then
      match rest with
      | [] => .error .eofErr
      | '+' :: r2 => parseExpDigits neg i f k false r2
      | '-' :: r2 => parseExpDigits neg i f k true r2
      | _ => parseExpDigits neg i f k false rest
    else .ok (mkNum neg i f k 0, c :: rest)

/-- Optional fraction part of a number literal. -/
def parseFracPart (neg : Bool) (i : Nat) (cs : List Char) :
    Except JErr (ℚ × List Char) :=
  match cs with
  | '.' :: rest =>
    (match rest with
     | [] => .error .eofErr
     | c :: _ =>
       if c.isDigit then
         let p := takeDigits rest
         parseExpPart neg i (digitsToNat p.1) p.1.length p.2
       else .error .synErr)
  | _ => parseExpPart neg i 0 0 cs

/-- A JSON number literal.  `neg` records a already-consumed minus sign.
As in serde_json, an integer part `0` may not be followed by further
digits; a following digit is left in the input for the surrounding
context to reject. -/
def parseNumber (neg : Bool) (cs : List Char) : Except JErr (ℚ × List Char) :=
  match cs with
  | [] => .error .eofErr
  | c :: rest =>
    if c = '0' then parseFracPart neg 0 rest
    else if c.isDigit then
      let p := takeDigits (c :: rest)
      parseFracPart neg (digitsToNat p.1) p.2
    else .error .synErr

/-- Elements of a non-empty array, value by value.  `pv` parses one value
(an instance of `parseValue` at smaller fuel). -/
def arrLoop (pv : List Char → Except JErr (Json × List Char)) :
    Nat → List Json → List Char → Except JErr (Json × List Char)
  | 0, _, _ => .error .synErr
  | fuel + 1, acc, cs =>
    match pv cs with
    | .error e => .error e
    | .ok (v, r) =>
      match skipWs r with
      | ',' :: r2 => arrLoop pv fuel (acc ++ [v]) r2
      | ']' :: r2 => .ok (.arr (acc ++ [v]), r2)
      | [] => .error .eofErr
      | _ => .error .synErr

/-- Members of a non-empty object, key by key, starting at a key position
with whitespace already skipped. -/
def objLoop (pv : List Char → Except JErr (Json × List Char)) :
    Nat → List (String × Json) → List Char → Except JErr (Json × List Char)
  | 0, _, _ => .error .synErr
  | fuel + 1, acc, cs =>
    match cs with
    | [] => .error .eofErr
    | '"' :: r =>
      (match parseStringBody (r.length + 1) [] r with
       | .error e => .error e
       | .ok (k, r2) =>
         match skipWs r2 with
         | ':' :: r3 =>
           (match pv r3 with
            | .error e => .error e
            | .ok (v, r4) =>
              match skipWs r4 with
              | ',' :: r5 => objLoop pv fuel (acc ++ [(k, v)]) (skipWs r5)
              | '\x7d' :: r5 => .ok (.obj (acc ++ [(k, v)]), r5)
              | [] => .error .eofErr
              | _ => .error .synErr)
         | [] => .error .eofErr
         | _ => .error .synErr)
    | _ => .error .synErr

/-- One JSON value, leading whitespace included.  Fuel decreases at every
nesting step; `cs.length + 1` always suffices at top level since every
decrement follows consumption of at least one character. -/
def parseValue : Nat → List Char → Except JErr (Json × List Char)
  | 0, _ => .error .synErr
  | fuel + 1, cs =>
    match skipWs cs with
    | [] => .error .eofErr
    | c :: rest =>
      if c = 'n' then (expectChars ['u', 'l', 'l'] rest).map (fun r => (Json.null, r))
      else if c = 't' then (expectChars ['r', 'u', 'e'] rest).map (fun r => (Json.bool true, r))
      else if c = 'f' then (expectChars ['a', 'l', 's', 'e'] rest).map (fun r => (Json.bool false, r))
      else if c = '-' then (parseNumber true rest).map (fun p => (Json.num p.1, p.2))
      else if c.isDigit then (parseNumber false (c :: rest)).map (fun p => (Json.num p.1, p.2))
      else if c = '"' then (parseStringBody (rest.length + 1) [] rest).map (fun p => (Json.str p.1, p.2))
      else if c = '[' then
        match skipWs rest with
        | ']' :: r2 => .ok (.arr [], r2)
        | [] => .error .eofErr
        | r => arrLoop (parseValue fuel) fuel [] r
      else if c = '\x7b' then
        match skipWs rest with
        | '\x7d' :: r2 => .ok (.obj [], r2)
        | [] => .error .eofErr
        | r => objLoop (parseValue fuel) fuel [] r
      else .error .synErr

/-- The serde_json text parser: one value, then only trailing whitespace. -/
def parseJsonText (s : String) : Except JErr Json :=
  match parseValue (s.toList.length + 1) s.toList with
  | .error e => .error e
  | .ok (j, rest) =>
    match skipWs rest with
    | [] => .ok j
    | _ => .error .synErr

/-- Source `default_timestamp`: 0.0. -/
def default_timestamp : ℚ := 0

/-- Source `default_unknown_string`: "unknown". -/
def default_unknown_string : String := "unknown"

/-- Source `RisResponseData`: the data portion of a response.  Every field
carries a serde default attribute. -/
structure RisResponseData where
  timestamp : ℚ
  peer : String
  peer_asn : String
  id : String
  host : String
  data_type : String
deriving DecidableEq

/-- Source `impl Default for RisResponseData`. -/
def RisResponseData.defaultValue : RisResponseData :=
  ⟨default_timestamp, default_unknown_string, default_unknown_string,
   default_unknown_string, default_unknown_string, default_unknown_string⟩

/-- Source `RisRequestData`: the data portion of a request; all four
fields optional.  The path elements are u32 values; no claim involves
32-bit overflow, so they are carried as naturals. -/
structure RisRequestData where
  host : Option String
  data_type : Option String
  require : Option String
  path : Option (List Nat)

/-- Source `RisResponse`.  The `type` member has a serde default; the
`data` member has none, so serde requires it. -/
structure RisResponse where
  message_type : String
  data : RisResponseData
deriving DecidableEq

/-- Source `RisRequest`. -/
structure RisRequest where
  message_type : String
  data : Option RisRequestData

/-- serde serialization of an optional string field: the source derives
Serialize without skip_serializing_if, so a missing value is emitted as
an explicit JSON null. -/
def jsonOfOptString : Option String → Json
  | none => .null
  | some s => .str s

/-- serde serialization of the optional path field: null when absent, an
array of JSON numbers when present. -/
def jsonOfOptPath : Option (List Nat) → Json
  | none => .null
  | some xs => .arr (xs.map fun n => .num (n : ℚ))

/-- serde serialization of `RisRequestData`: the four fields in
declaration order, `data_type` renamed to `type`. -/
def risRequestDataToJson (d : RisRequestData) : Json :=
  .obj [("host", jsonOfOptString d.host),
        ("type", jsonOfOptString d.data_type),
        ("require", jsonOfOptString d.require),
        ("path", jsonOfOptPath d.path)]

/-- serde serialization of `RisRequest`: `message_type` renamed to
`type`, and the optional data record (null when absent). -/
def risRequestToJson (r : RisRequest) : Json :=
  .obj [("type", .str r.message_type),
        ("data", match r.data with
                 | none => .null
                 | some d => risRequestDataToJson d)]

/-- Deserialize a JSON value into a Rust String field. -/
def decodeString : Json → Except JErr String
  | .str s => .ok s
  | _ => .error .dataErr

/-- Deserialize a JSON value into the f32 timestamp field: any JSON
number is accepted, anything else is a data error. -/
def decodeF32 : Json → Except JErr ℚ
  | .num q => .ok q
  | _ => .error .dataErr

/-- Field slots of the serde map visitor for `RisResponseData`. -/
structure RRDataSlots where
  timestamp : Option ℚ
  peer : Option String
  peer_asn : Option String
  id : Option String
  host : Option String
  data_type : Option String

/-- Empty slots at the start of the visit. -/
def RRDataSlots.init : RRDataSlots := ⟨none, none, none, none, none, none⟩

/-- One member visited by the serde map visitor for `RisResponseData`:
a known key fills its slot (a second occurrence is a duplicate-field data
error, a mistyped value a data error), any other key is ignored. -/
def rrdStep (s : RRDataSlots) (k : String) (v : Json) : Except JErr RRDataSlots :=
  if k = "timestamp" then
    match s.timestamp with
    | some _ => .error .dataErr
    | none =>
      match decodeF32 v with
      | .error e => .error e
      | .ok q => .ok { s with timestamp := some q }
  else if k = "peer" then
    match s.peer with
    | some _ => .error .dataErr
    | none =>
      match decodeString v with
      | .error e => .error e
      | .ok x => .ok { s with peer := some x }
  else if k = "peer_asn" then
    match s.peer_asn with
    | some _ => .error .dataErr
    | none =>
      match decodeString v with
      | .error e => .error e
      | .ok x => .ok { s with peer_asn := some x }
  else if k = "id" then
    match s.id with
    | some _ => .error .dataErr
    | none =>
      match decodeString v with
      | .error e => .error e
      | .ok x => .ok { s with id := some x }
  else if k = "host" then
    match s.host with
    | some _ => .error .dataErr
    | none =>
      match decodeString v with
      | .error e => .error e
      | .ok x => .ok { s with host := some x }
  else if k = "type" then
    match s.data_type with
    | some _ => .error .dataErr
    | none =>
      match decodeString v with
      | .error e => .error e
      | .ok x => .ok { s with data_type := some x }
  else .ok s

/-- The serde map visitor for `RisResponseData`, over the member list. -/
def rrdFold : RRDataSlots → List (String × Json) → Except JErr RRDataSlots
  | s, [] => .ok s
  | s, (k, v) :: rest =>
    match rrdStep s k v with
    | .error e => .error e
    | .ok s2 => rrdFold s2 rest

/-- End of the visit: every unfilled slot takes its serde default. -/
def rrdFinalize (s : RRDataSlots) : RisResponseData :=
  ⟨s.timestamp.getD default_timestamp,
   s.peer.getD default_unknown_string,
   s.peer_asn.getD default_unknown_string,
   s.id.getD default_unknown_string,
   s.host.getD default_unknown_string,
   s.data_type.getD default_unknown_string⟩

/-- serde deserialization of `RisResponseData` from a JSON value: a map
is visited member by member, anything else is a data error. -/
def decodeRisResponseData : Json → Except JErr RisResponseData
  | .obj kvs =>
    (match rrdFold RRDataSlots.init kvs with
     | .error e => .error e
     | .ok s => .ok (rrdFinalize s))
  | _ => .error .dataErr

/-- Field slots of the serde map visitor for `RisResponse`. -/
structure RRSlots where
  message_type : Option String
  data : Option RisResponseData

/-- One member visited by the serde map visitor for `RisResponse`. -/
def rrStep (s : RRSlots) (k : String) (v : Json) : Except JErr RRSlots :=
  if k = "type" then
    match s.message_type with
    | some _ => .error .dataErr
    | none =>
      match decodeString v with
      | .error e => .error e
      | .ok x => .ok ⟨some x, s.data⟩
  else if k = "data" then
    match s.data with
    | some _ => .error .dataErr
    | none =>
      match decodeRisResponseData v with
      | .error e => .error e
      | .ok d => .ok ⟨s.message_type, some d⟩
  else .ok s

/-- The serde map visitor for `RisResponse`, over the member list. -/
def rrFold : RRSlots → List (String × Json) → Except JErr RRSlots
  | s, [] => .ok s
  | s, (k, v) :: rest =>
    match rrStep s k v with
    | .error e => .error e
    | .ok s2 => rrFold s2 rest

/-- serde deserialization of `RisResponse`: the `type` slot defaults to
"unknown" when unfilled; the `data` slot has no serde default attribute in
the source, so an unfilled `data` slot is a missing-field data error. -/
def decodeRisResponse : Json → Except JErr RisResponse
  | .obj kvs =>
    (match rrFold ⟨none, none⟩ kvs with
     | .error e => .error e
     | .ok s =>
       match s.data with
       | some d => .ok ⟨s.message_type.getD default_unknown_string, d⟩
       | none => .error .dataErr)
  | _ => .error .dataErr

/-- The `serde_json::from_str::<RisResponse>` call of the forwarding
loop: text parsing followed by struct deserialization. -/
def from_str (s : String) : Except JErr RisResponse :=
  match parseJsonText s with
  | .error e => .error e
  | .ok j => decodeRisResponse j

/-- The `is_eof()` test of the forwarding loop: true exactly for the
end-of-input parse error. -/
def JErr.isEof : JErr → Bool
  | .eofErr => true
  | _ => false

/-- Outcome of the spawned forwarding loop over a finite inbound
sequence: either the inbound stream ended (connection closed) after the
listed records were forwarded in order, or the task panicked after
forwarding them. -/
inductive LoopOutcome where
  | completed (delivered : List RisResponse)
  | panicked (delivered : List RisResponse)
deriving DecidableEq

/-- The spawned forwarding loop of `stream_custom`, over the finite list
of inbound transport events (`Except.error` is a transport read error,
`Except.ok` a frame already converted to text).  Per frame: decode with
`from_str`; an error with `is_eof()` true is skipped silently; any other
error panics; a decoded record is sent down the channel.  The consumer is
assumed to hold the receiving end, so the channel send itself succeeds
(its failure is the other panic arm of the source). -/
def runLoop : List (Except Unit String) → LoopOutcome
  | [] => .completed []
  | .error _ :: _ => .panicked []
  | .ok s :: rest =>
    match from_str s with
    | .ok r =>
      (match runLoop rest with
       | .completed tail => .completed (r :: tail)
       | .panicked tail => .panicked (r :: tail))
    | .error e => if e.isEof then runLoop rest else .panicked []

/-- Source `RisClient`: connection configuration. -/
structure RisClient where
  host : String
  client_id : String

/-- Source `RisClient::new`: stores the two strings verbatim, always
succeeds. -/
def RisClient.new (host : String) (client_id : String) :
    Except Unit RisClient :=
  .ok ⟨host, client_id⟩

/-- Source `RisClient::default`: the fixed public endpoint and client
identifier. -/
def RisClient.defaultClient : Except Unit RisClient :=
  .ok ⟨"ris-live.ripe.net", "rust-risclient"⟩

/-- Behaviour of the external transport for one `stream_custom` call:
whether `connect_async` succeeds, whether the subscribe send succeeds,
and the finite sequence of inbound events afterwards. -/
structure Transport where
  connectOk : Bool
  sendOk : Bool
  inbound : List (Except Unit String)

/-- Caller-visible outcome of `stream_custom`. -/
inductive StreamOutcome where
  | connErr
  | sendErr
  | streaming (loop : LoopOutcome)

/-- One `stream_custom` call: the URL given to `connect_async`, the
subscribe frame handed to the send (as its JSON value; serialization of
these types cannot fail), and the outcome. -/
structure StreamAttempt where
  url : String
  sent : Option Json
  outcome : StreamOutcome

/-- Source `RisClient::stream_custom`: build the URL, connect, build the
`ris_subscribe` request with the four filter arguments wrapped in
`Some(RisRequestData ...)`, serialize and send it, then spawn the
forwarding loop and hand the receiving end to the caller. -/
def RisClient.stream_custom (self : RisClient) (host data_type require : Option String)
    (path : Option (List Nat)) (t : Transport) : StreamAttempt :=
  let url := "wss://" ++ self.host ++ "/v1/ws/?client=" ++ self.client_id
  if t.connectOk then
    let request : RisRequest := ⟨"ris_subscribe", some ⟨host, data_type, require, path⟩⟩
    let message := risRequestToJson request
    if t.sendOk then ⟨url, some message, .streaming (runLoop t.inbound)⟩
    else ⟨url, some message, .sendErr⟩
  else ⟨url, none, .connErr⟩

/-- Source `RisClient::stream`: delegates to `stream_custom` with no
filters. -/
def RisClient.stream (self : RisClient) (t : Transport) : StreamAttempt :=
  self.stream_custom none none none none t

/-- First value of an association list under a key, as the serde visitor
would first encounter it. -/
def assocLookup (k : String) : List (String × Json) → Option Json
  | [] => none
  | (k2, v) :: rest => if k2 = k then some v else assocLookup k rest

/-- Keys of a JSON object, in order, duplicates kept. -/
def objKeys : Json → List String
  | .obj kvs => kvs.map Prod.fst
  | _ => []

/-- Member of a JSON object, first occurrence. -/
def objLookup (k : String) : Json → Option Json
  | .obj kvs => assocLookup k kvs
  | _ => none

/-- A frame that is empty or consists only of JSON whitespace. -/
def isBlank (s : String) : Bool := s.toList.all isJsonWs

/-- The member keys the serde visitor for `RisResponseData` recognizes;
every other key is ignored. -/
def isKnownDataKey (k : String) : Bool :=
  if k = "timestamp" then true
  else if k = "peer" then true
  else if k = "peer_asn" then true
  else if k = "id" then true
  else if k = "host" then true
  else if k = "type" then true
  else false

/-- The member keys the serde visitor for `RisResponse` recognizes. -/
def isKnownTopKey (k : String) : Bool :=
  if k = "type" then true
  else if k = "data" then true
  else false

/-- Remove unrecognized keys from a `data` object (other values are left
alone). -/
def stripData : Json → Json
  | .obj kvs => .obj (kvs.filter fun kv => isKnownDataKey kv.1)
  | j => j

/-- Strip a top-level member: the value of a `data` member is stripped of
its unrecognized keys. -/
def stripTopEntry (kv : String × Json) : String × Json :=
  if kv.1 = "data" then (kv.1, stripData kv.2) else kv

/-- Remove every unrecognized key of a top-level response object, at the
top level and inside its `data` members. -/
def stripTop (kvs : List (String × Json)) : List (String × Json) :=
  (kvs.filter fun kv => isKnownTopKey kv.1).map stripTopEntry

theorem skipWs_eq_nil (cs : List Char) (h : cs.all isJsonWs = true) : skipWs cs = [] := by
  induction cs with
  | nil => rfl
  | cons c cs ih =>
    rw [List.all_cons, Bool.and_eq_true] at h
    rw [skipWs, if_pos h.1, ih h.2]

theorem from_str_of_blank (s : String) (h : isBlank s = true) :
    from_str s = .error .eofErr := by
  have h1 : skipWs s.toList = [] := skipWs_eq_nil _ h
  rw [String.toList] at h1
  simp [from_str, parseJsonText, parseValue, h1]

/-- C7: for every client with host h and client identifier c and every
filter choice and transport outcome, `stream_custom` hands `connect_async`
exactly the URL wss://h/v1/ws/?client=c. -/
theorem stream_custom_url (h c : String) (host data_type require : Option String)
    (path : Option (List Nat)) (t : Transport) :
    ((RisClient.mk h c).stream_custom host data_type require path t).url =
      "wss://" ++ h ++ "/v1/ws/?client=" ++ c := by
  unfold RisClient.stream_custom
  cases t.connectOk <;> cases t.sendOk <;> rfl

/-- C9: `stream` returns exactly the result of `stream_custom` with all
four filters absent, for every client and transport outcome. -/
theorem stream_eq_stream_custom_none (c : RisClient) (t : Transport) :
    c.stream t = c.stream_custom none none none none t := rfl

/-- C2 (code evaluation at the failing input): an inbound frame that is a
valid JSON object with no `data` member fails to decode with a data error
(missing field), because the `data` field of `RisResponse` carries no
serde default attribute; the documented intent (ping/pong frames carry no
data, and `RisResponseData` has a hand-written `Default` instance) says
decoding should succeed with every field defaulted. -/
theorem response_missing_data_fails :
    from_str "\x7b\"type\":\"Pong\"\x7d" = .error .dataErr ∧
    runLoop [Except.ok "\x7b\"type\":\"Pong\"\x7d"] = .panicked [] :=
  ⟨rfl, by decide⟩

/-- C4: an inbound frame that is empty or consists only of whitespace
decodes with an end-of-input error, which the forwarding loop skips
silently: nothing is enqueued and the loop continues with the remaining
frames. -/
theorem blank_frame_skipped (s : String) (rest : List (Except Unit String))
    (h : isBlank s = true) :
    runLoop (Except.ok s :: rest) = runLoop rest := by
  simp [runLoop, from_str_of_blank s h, JErr.isEof]

theorem blank_frame_skipped_witness :
    runLoop [Except.ok " \t\r\n"] = LoopOutcome.completed [] :=
  (blank_frame_skipped " \t\r\n" [] (by decide)).trans rfl

/-- C6 counterexample: the frame consisting of the single character
0x7b (an opening brace) is not blank and fails to decode, yet the
forwarding loop does not abort: serde reports the truncation as an
end-of-input error, exactly the condition the loop skips, so the frame is
silently swallowed and the loop runs on to completion. -/
theorem truncated_frame_not_fatal :
    isBlank "\x7b" = false ∧
    from_str "\x7b" = .error .eofErr ∧
    runLoop [Except.ok "\x7b"] = .completed [] :=
  ⟨by decide, rfl, by decide⟩

/-- C6 (amended): a frame whose decode fails with an error other than the
end-of-input error makes the forwarding loop panic at once: nothing is
enqueued and no later frame is processed.  (End-of-input failures are
skipped instead, and they arise not only for blank frames but for every
truncated frame, such as a lone opening brace.) -/
theorem non_eof_decode_failure_panics (s : String) (rest : List (Except Unit String))
    (e : JErr) (hdec : from_str s = .error e) (hne : e.isEof = false) :
    runLoop (Except.ok s :: rest) = .panicked [] := by
  simp [runLoop, hdec, hne]

theorem non_eof_decode_failure_panics_witness :
    runLoop [Except.ok "\x7d"] = LoopOutcome.panicked [] :=
  non_eof_decode_failure_panics "\x7d" [] .synErr rfl rfl

/-- C1 counterexample: encoding a filter with only `host` set does not
omit the absent fields.  The derived Serialize has no
skip_serializing_if, so `None` is emitted as an explicit null and the
`data` object carries all four keys. -/
theorem request_only_host_not_omitted :
    (objLookup "data" (risRequestToJson
        ⟨"ris_subscribe", some ⟨some "rrc16", none, none, none⟩⟩)).map objKeys =
      some ["host", "type", "require", "path"] ∧
    (objLookup "data" (risRequestToJson
        ⟨"ris_subscribe", some ⟨some "rrc16", none, none, none⟩⟩)).map objKeys ≠
      some ["host"] ∧
    (objLookup "data" (risRequestToJson
        ⟨"ris_subscribe", some ⟨some "rrc16", none, none, none⟩⟩)).bind
        (objLookup "type") = some Json.null :=
  ⟨by decide, by decide, rfl⟩

/-- C1 (amended): the serialized `data` object always carries exactly the
four keys host, type, require, path in declaration order; an absent field
appears as an explicit JSON null, and a present field carries its value
unchanged. -/
theorem request_data_fields_null_when_absent (d : RisRequestData) :
    objKeys (risRequestDataToJson d) = ["host", "type", "require", "path"] ∧
    (d.host = none → objLookup "host" (risRequestDataToJson d) = some Json.null) ∧
    (∀ s, d.host = some s → objLookup "host" (risRequestDataToJson d) = some (Json.str s)) ∧
    (d.data_type = none → objLookup "type" (risRequestDataToJson d) = some Json.null) ∧
    (∀ s, d.data_type = some s → objLookup "type" (risRequestDataToJson d) = some (Json.str s)) ∧
    (d.require = none → objLookup "require" (risRequestDataToJson d) = some Json.null) ∧
    (∀ s, d.require = some s → objLookup "require" (risRequestDataToJson d) = some (Json.str s)) ∧
    (d.path = none → objLookup "path" (risRequestDataToJson d) = some Json.null) ∧
    (∀ xs, d.path = some xs → objLookup "path" (risRequestDataToJson d) =
      some (Json.arr (xs.map fun n => Json.num (n : ℚ)))) := by
  obtain ⟨h, dt, r, p⟩ := d
  cases h <;> cases dt <;> cases r <;> cases p <;>
    simp [risRequestDataToJson, objKeys, objLookup, assocLookup, jsonOfOptString, jsonOfOptPath]

theorem request_data_fields_null_when_absent_witness :
    objKeys (risRequestDataToJson ⟨some "rrc16", none, none, none⟩) =
      ["host", "type", "require", "path"] ∧
    objLookup "host" (risRequestDataToJson ⟨some "rrc16", none, none, none⟩) =
      some (Json.str "rrc16") ∧
    objLookup "type" (risRequestDataToJson ⟨some "rrc16", none, none, none⟩) =
      some Json.null ∧
    objLookup "require" (risRequestDataToJson ⟨some "rrc16", none, none, none⟩) =
      some Json.null ∧
    objLookup "path" (risRequestDataToJson ⟨some "rrc16", none, none, none⟩) =
      some Json.null :=
  ⟨(request_data_fields_null_when_absent ⟨some "rrc16", none, none, none⟩).1,
   (request_data_fields_null_when_absent ⟨some "rrc16", none, none, none⟩).2.2.1 "rrc16" rfl,
   (request_data_fields_null_when_absent ⟨some "rrc16", none, none, none⟩).2.2.2.1 rfl,
   (request_data_fields_null_when_absent ⟨some "rrc16", none, none, none⟩).2.2.2.2.2.1 rfl,
   (request_data_fields_null_when_absent ⟨some "rrc16", none, none, none⟩).2.2.2.2.2.2.2.1 rfl⟩

/-- C5: when every frame of a finite inbound sequence decodes
successfully, the loop forwards exactly those decoded records, in order,
with no drop, reorder or duplicate, and completes when the stream ends. -/
theorem ordered_delivery (frames : List String) (rs : List RisResponse)
    (h : frames.mapM (fun f => (from_str f).toOption) = some rs) :
    runLoop (frames.map Except.ok) = .completed rs := by
  induction frames generalizing rs with
  | nil =>
    simp only [List.mapM_nil, pure, Option.some.injEq] at h
    subst h
    rfl
  | cons f fs ih =>
    rw [List.mapM_cons] at h
    cases hf : from_str f with
    | error e =>
      rw [hf] at h
      simp [Except.toOption] at h
    | ok r =>
      rw [hf] at h
      cases hm : fs.mapM (fun f => (from_str f).toOption) with
      | none =>
        rw [hm] at h
        simp [Except.toOption] at h
      | some rs2 =>
        rw [hm] at h
        simp [Except.toOption] at h
        subst h
        simp [runLoop, List.map_cons, hf, ih rs2 hm]

theorem ordered_delivery_witness :
    runLoop [Except.ok "\x7b\"data\":\x7b\x7d\x7d",
             Except.ok "\x7b\"type\":\"ris_message\",\"data\":\x7b\"peer\":\"192.0.2.1\"\x7d\x7d"] =
      LoopOutcome.completed
        [⟨"unknown", ⟨0, "unknown", "unknown", "unknown", "unknown", "unknown"⟩⟩,
         ⟨"ris_message", ⟨0, "192.0.2.1", "unknown", "unknown", "unknown", "unknown"⟩⟩] :=
  ordered_delivery
    ["\x7b\"data\":\x7b\x7d\x7d",
     "\x7b\"type\":\"ris_message\",\"data\":\x7b\"peer\":\"192.0.2.1\"\x7d\x7d"]
    [⟨"unknown", ⟨0, "unknown", "unknown", "unknown", "unknown", "unknown"⟩⟩,
     ⟨"ris_message", ⟨0, "192.0.2.1", "unknown", "unknown", "unknown", "unknown"⟩⟩]
    (by decide)

/-- C8: whenever the connection opens, the one outbound subscribe frame
has message-type literal ris_subscribe and always carries a `data`
object with exactly the four filter keys, each provided argument passed
through unchanged; a provided path appears as a JSON array of numbers. -/
theorem subscribe_frame_shape (cl : RisClient) (h dt req : Option String)
    (p : Option (List Nat)) (t : Transport) (hc : t.connectOk = true) :
    (cl.stream_custom h dt req p t).sent =
      some (Json.obj [("type", Json.str "ris_subscribe"),
                      ("data", risRequestDataToJson ⟨h, dt, req, p⟩)]) ∧
    objKeys (risRequestDataToJson ⟨h, dt, req, p⟩) = ["host", "type", "require", "path"] ∧
    (∀ s, h = some s →
      objLookup "host" (risRequestDataToJson ⟨h, dt, req, p⟩) = some (Json.str s)) ∧
    (∀ s, dt = some s →
      objLookup "type" (risRequestDataToJson ⟨h, dt, req, p⟩) = some (Json.str s)) ∧
    (∀ s, req = some s →
      objLookup "require" (risRequestDataToJson ⟨h, dt, req, p⟩) = some (Json.str s)) ∧
    (∀ xs, p = some xs →
      objLookup "path" (risRequestDataToJson ⟨h, dt, req, p⟩) =
        some (Json.arr (xs.map fun n => Json.num (n : ℚ)))) := by
  refine ⟨?_, ?_, ?_, ?_, ?_, ?_⟩
  · unfold RisClient.stream_custom
    rw [hc]
    cases t.sendOk <;> simp [risRequestToJson]
  · rfl
  · intro s hs
    subst hs
    rfl
  · intro s hs
    subst hs
    rfl
  · intro s hs
    subst hs
    rfl
  · intro xs hs
    subst hs
    rfl

theorem subscribe_frame_shape_witness :
    ((RisClient.mk "ris-live.ripe.net" "rust-risclient").stream_custom
        none none none (some [64512, 64513]) ⟨true, true, []⟩).sent =
      some (Json.obj [("type", Json.str "ris_subscribe"),
        ("data", risRequestDataToJson ⟨none, none, none, some [64512, 64513]⟩)]) ∧
    objLookup "path" (risRequestDataToJson ⟨none, none, none, some [64512, 64513]⟩) =
      some (Json.arr [Json.num 64512, Json.num 64513]) := by
  have h := subscribe_frame_shape (RisClient.mk "ris-live.ripe.net" "rust-risclient")
    none none none (some [64512, 64513]) ⟨true, true, []⟩ rfl
  exact ⟨h.1, by simpa using h.2.2.2.2.2 [64512, 64513] rfl⟩

theorem rrdStep_fields (s s2 : RRDataSlots) (k : String) (v : Json)
    (h : rrdStep s k v = .ok s2) :
    (k ≠ "timestamp" → s2.timestamp = s.timestamp) ∧
    (k ≠ "peer" → s2.peer = s.peer) ∧
    (k ≠ "peer_asn" → s2.peer_asn = s.peer_asn) ∧
    (k ≠ "id" → s2.id = s.id) ∧
    (k ≠ "host" → s2.host = s.host) ∧
    (k ≠ "type" → s2.data_type = s.data_type) := by
  unfold rrdStep at h
  split_ifs at h <;>
    first
      | (injection h with hE; subst hE; simp_all)
      | (split at h <;> (try split at h) <;> simp_all <;> (try (subst h; simp)))

theorem rrdFold_fields (l : List (String × Json)) : ∀ (s s' : RRDataSlots),
    rrdFold s l = .ok s' →
    ("timestamp" ∉ l.map Prod.fst → s'.timestamp = s.timestamp) ∧
    ("peer" ∉ l.map Prod.fst → s'.peer = s.peer) ∧
    ("peer_asn" ∉ l.map Prod.fst → s'.peer_asn = s.peer_asn) ∧
    ("id" ∉ l.map Prod.fst → s'.id = s.id) ∧
    ("host" ∉ l.map Prod.fst → s'.host = s.host) ∧
    ("type" ∉ l.map Prod.fst → s'.data_type = s.data_type) := by
  induction l with
  | nil =>
    intro s s' h
    simp only [rrdFold] at h
    injection h with hE
    subst hE
    simp
  | cons kv rest ih =>
    intro s s' h
    obtain ⟨k, v⟩ := kv
    simp only [rrdFold] at h
    cases hs : rrdStep s k v with
    | error e => rw [hs] at h; exact Except.noConfusion h
    | ok s2 =>
      rw [hs] at h
      have hstep := rrdStep_fields s s2 k v hs
      have hrec := ih s2 s' h
      refine ⟨fun hm => ?_, fun hm => ?_, fun hm => ?_, fun hm => ?_, fun hm => ?_,
        fun hm => ?_⟩ <;>
        simp only [List.map_cons, List.mem_cons, not_or] at hm
      · rw [hrec.1 hm.2, hstep.1 (fun hk => hm.1 hk.symm)]
      · rw [hrec.2.1 hm.2, hstep.2.1 (fun hk => hm.1 hk.symm)]
      · rw [hrec.2.2.1 hm.2, hstep.2.2.1 (fun hk => hm.1 hk.symm)]
      · rw [hrec.2.2.2.1 hm.2, hstep.2.2.2.1 (fun hk => hm.1 hk.symm)]
      · rw [hrec.2.2.2.2.1 hm.2, hstep.2.2.2.2.1 (fun hk => hm.1 hk.symm)]
      · rw [hrec.2.2.2.2.2 hm.2, hstep.2.2.2.2.2 (fun hk => hm.1 hk.symm)]

theorem rrStep_fields (s s2 : RRSlots) (k : String) (v : Json)
    (h : rrStep s k v = .ok s2) :
    (k ≠ "type" → s2.message_type = s.message_type) ∧
    (k ≠ "data" → s2.data = s.data) := by
  unfold rrStep at h
  split_ifs at h <;>
    first
      | (injection h with hE; subst hE; simp_all)
      | (split at h <;> (try split at h) <;> simp_all <;> (try (subst h; simp)))

theorem rrStep_data_ok (s s2 : RRSlots) (v : Json) (h : rrStep s "data" v = .ok s2)
    (hn : s.data = none) :
    ∃ d, decodeRisResponseData v = .ok d ∧ s2.data = some d := by
  unfold rrStep at h
  rw [if_neg (by decide), if_pos rfl] at h
  simp only [hn] at h
  cases hd : decodeRisResponseData v with
  | error e =>
    simp only [hd] at h
    exact Except.noConfusion h
  | ok d =>
    simp only [hd] at h
    injection h with hE
    subst hE
    exact ⟨d, rfl, rfl⟩

theorem rrFold_data_some (l : List (String × Json)) :
    ∀ (s s' : RRSlots) (d : RisResponseData),
    rrFold s l = .ok s' → s.data = some d → s'.data = some d := by
  induction l with
  | nil =>
    intro s s' d h hd
    simp only [rrFold] at h
    injection h with hE
    subst hE
    exact hd
  | cons kv rest ih =>
    intro s s' d h hd
    obtain ⟨k, v⟩ := kv
    simp only [rrFold] at h
    cases hs : rrStep s k v with
    | error e => rw [hs] at h; exact Except.noConfusion h
    | ok s2 =>
      rw [hs] at h
      by_cases hk : k = "data"
      · subst hk
        unfold rrStep at hs
        rw [if_neg (by decide), if_pos rfl] at hs
        simp only [hd] at hs
        exact Except.noConfusion hs
      · exact ih s2 s' d h (((rrStep_fields s s2 k v hs).2 hk).trans hd)

theorem rrFold_data_first (l : List (String × Json)) : ∀ (s s' : RRSlots),
    rrFold s l = .ok s' → s.data = none →
    ∀ j, assocLookup "data" l = some j →
    ∃ d, decodeRisResponseData j = .ok d ∧ s'.data = some d := by
  induction l with
  | nil =>
    intro s s' _ _ j hj
    exact absurd hj (by simp [assocLookup])
  | cons kv rest ih =>
    intro s s' h hn j hj
    obtain ⟨k, v⟩ := kv
    simp only [rrFold] at h
    cases hs : rrStep s k v with
    | error e => rw [hs] at h; exact Except.noConfusion h
    | ok s2 =>
      rw [hs] at h
      by_cases hk : k = "data"
      · subst hk
        rw [assocLookup, if_pos rfl] at hj
        injection hj with hjv
        subst hjv
        obtain ⟨d, hdec, hs2⟩ := rrStep_data_ok s s2 _ hs hn
        exact ⟨d, hdec, rrFold_data_some rest s2 s' d h hs2⟩
      · rw [assocLookup, if_neg hk] at hj
        exact ih s2 s' h (((rrStep_fields s s2 k v hs).2 hk).trans hn) j hj

theorem rrFold_type_not_mem (l : List (String × Json)) : ∀ (s s' : RRSlots),
    rrFold s l = .ok s' → "type" ∉ l.map Prod.fst →
    s'.message_type = s.message_type := by
  induction l with
  | nil =>
    intro s s' h _
    simp only [rrFold] at h
    injection h with hE
    subst hE
    rfl
  | cons kv rest ih =>
    intro s s' h hm
    obtain ⟨k, v⟩ := kv
    simp only [List.map_cons, List.mem_cons, not_or] at hm
    simp only [rrFold] at h
    cases hs : rrStep s k v with
    | error e => rw [hs] at h; exact Except.noConfusion h
    | ok s2 =>
      rw [hs] at h
      rw [ih s2 s' h hm.2, (rrStep_fields s s2 k v hs).1 (fun hk => hm.1 hk.symm)]

theorem decodeRRD_defaults (inner : List (String × Json)) (rd : RisResponseData)
    (h : decodeRisResponseData (Json.obj inner) = .ok rd) :
    ("timestamp" ∉ inner.map Prod.fst → rd.timestamp = 0) ∧
    ("peer" ∉ inner.map Prod.fst → rd.peer = "unknown") ∧
    ("peer_asn" ∉ inner.map Prod.fst → rd.peer_asn = "unknown") ∧
    ("id" ∉ inner.map Prod.fst → rd.id = "unknown") ∧
    ("host" ∉ inner.map Prod.fst → rd.host = "unknown") ∧
    ("type" ∉ inner.map Prod.fst → rd.data_type = "unknown") := by
  simp only [decodeRisResponseData] at h
  cases hf : rrdFold RRDataSlots.init inner with
  | error e => rw [hf] at h; exact Except.noConfusion h
  | ok slots =>
    rw [hf] at h
    injection h with hE
    subst hE
    have hp := rrdFold_fields inner RRDataSlots.init slots hf
    refine ⟨fun hm => ?_, fun hm => ?_, fun hm => ?_, fun hm => ?_, fun hm => ?_,
      fun hm => ?_⟩
    · simp [rrdFinalize, hp.1 hm, RRDataSlots.init, default_timestamp]
    · simp [rrdFinalize, hp.2.1 hm, RRDataSlots.init, default_unknown_string]
    · simp [rrdFinalize, hp.2.2.1 hm, RRDataSlots.init, default_unknown_string]
    · simp [rrdFinalize, hp.2.2.2.1 hm, RRDataSlots.init, default_unknown_string]
    · simp [rrdFinalize, hp.2.2.2.2.1 hm, RRDataSlots.init, default_unknown_string]
    · simp [rrdFinalize, hp.2.2.2.2.2 hm, RRDataSlots.init, default_unknown_string]

/-- C3: decoding a JSON object whose `data` member is an object yields a
response in which every omitted data field equals its documented default
(timestamp 0.0, the five strings "unknown"), and an omitted top-level
`type` yields message type "unknown". -/
theorem response_defaults (outer inner : List (String × Json)) (resp : RisResponse)
    (hdata : assocLookup "data" outer = some (Json.obj inner))
    (hok : decodeRisResponse (Json.obj outer) = .ok resp) :
    ("type" ∉ outer.map Prod.fst → resp.message_type = "unknown") ∧
    ("timestamp" ∉ inner.map Prod.fst → resp.data.timestamp = 0) ∧
    ("peer" ∉ inner.map Prod.fst → resp.data.peer = "unknown") ∧
    ("peer_asn" ∉ inner.map Prod.fst → resp.data.peer_asn = "unknown") ∧
    ("id" ∉ inner.map Prod.fst → resp.data.id = "unknown") ∧
    ("host" ∉ inner.map Prod.fst → resp.data.host = "unknown") ∧
    ("type" ∉ inner.map Prod.fst → resp.data.data_type = "unknown") := by
  simp only [decodeRisResponse] at hok
  cases hf : rrFold ⟨none, none⟩ outer with
  | error e => rw [hf] at hok; exact Except.noConfusion hok
  | ok s =>
    rw [hf] at hok
    cases hsd : s.data with
    | none =>
      simp only [hsd] at hok
      exact Except.noConfusion hok
    | some d =>
      simp only [hsd] at hok
      injection hok with hE
      subst hE
      obtain ⟨d0, hdec, hs'd⟩ := rrFold_data_first outer ⟨none, none⟩ s hf rfl
        (Json.obj inner) hdata
      rw [hsd] at hs'd
      injection hs'd with hdd
      subst hdd
      have hdef := decodeRRD_defaults inner _ hdec
      have htype := rrFold_type_not_mem outer ⟨none, none⟩ s hf
      exact ⟨fun hm => by simp [htype hm, default_unknown_string],
        hdef.1, hdef.2.1, hdef.2.2.1, hdef.2.2.2.1, hdef.2.2.2.2.1, hdef.2.2.2.2.2⟩

theorem response_defaults_witness :
    (⟨"unknown", ⟨0, "unknown", "unknown", "unknown", "unknown", "unknown"⟩⟩ :
      RisResponse).message_type = "unknown" ∧
    (⟨"unknown", ⟨0, "unknown", "unknown", "unknown", "unknown", "unknown"⟩⟩ :
      RisResponse).data.timestamp = 0 :=
  have h := response_defaults [("data", Json.obj [])] []
    ⟨"unknown", ⟨0, "unknown", "unknown", "unknown", "unknown", "unknown"⟩⟩ rfl (by rfl)
  ⟨h.1 (by decide), h.2.1 (by decide)⟩

theorem rrdStep_unknown (s : RRDataSlots) (k : String) (v : Json)
    (h : isKnownDataKey k = false) : rrdStep s k v = .ok s := by
  unfold isKnownDataKey at h
  unfold rrdStep
  split_ifs at h ⊢ <;> simp_all

theorem rrdFold_filter (l : List (String × Json)) : ∀ s : RRDataSlots,
    rrdFold s (l.filter fun kv => isKnownDataKey kv.1) = rrdFold s l := by
  induction l with
  | nil => intro s; rfl
  | cons kv rest ih =>
    intro s
    obtain ⟨k, v⟩ := kv
    by_cases hk : isKnownDataKey (k, v).1
    · have hcons : List.filter (fun kv => isKnownDataKey kv.1) ((k, v) :: rest) =
          (k, v) :: List.filter (fun kv => isKnownDataKey kv.1) rest := by
        simp [List.filter_cons, hk]
      rw [hcons]
      simp only [rrdFold]
      cases hs : rrdStep s k v with
      | error e => rfl
      | ok s2 => exact ih s2
    · have hcons : List.filter (fun kv => isKnownDataKey kv.1) ((k, v) :: rest) =
          List.filter (fun kv => isKnownDataKey kv.1) rest := by
        simp [List.filter_cons, hk]
      rw [hcons, ih s]
      conv_rhs => rw [rrdFold]
      rw [rrdStep_unknown s k v (by simpa using hk)]
  

theorem decodeRRD_strip (j : Json) :
    decodeRisResponseData (stripData j) = decodeRisResponseData j := by
  cases j with
  | obj kvs => simp only [stripData, decodeRisResponseData, rrdFold_filter]
  | null => rfl
  | bool b => rfl
  | num q => rfl
  | str s => rfl
  | arr xs => rfl

theorem rrStep_unknown (s : RRSlots) (k : String) (v : Json)
    (h : isKnownTopKey k = false) : rrStep s k v = .ok s := by
  unfold isKnownTopKey at h
  unfold rrStep
  split_ifs at h ⊢ <;> simp_all

theorem rrFold_strip (l : List (String × Json)) : ∀ s : RRSlots,
    rrFold s (stripTop l) = rrFold s l := by
  induction l with
  | nil => intro s; rfl
  | cons kv rest ih =>
    intro s
    obtain ⟨k, v⟩ := kv
    by_cases hk : isKnownTopKey (k, v).1
    · have hcons : stripTop ((k, v) :: rest) = stripTopEntry (k, v) :: stripTop rest := by
        simp [stripTop, List.filter_cons, hk]
      rw [hcons]
      by_cases hd : k = "data"
      · subst hd
        have hentry : stripTopEntry ("data", v) = ("data", stripData v) := by
          simp [stripTopEntry]
        rw [hentry]
        simp only [rrFold]
        have hstep : rrStep s "data" (stripData v) = rrStep s "data" v := by
          cases hn : s.data with
          | some d => simp [rrStep, hn]
          | none => simp [rrStep, hn, decodeRRD_strip]
        rw [hstep]
        cases hs : rrStep s "data" v with
        | error e => rfl
        | ok s2 => exact ih s2
      · have hentry : stripTopEntry (k, v) = (k, v) := by simp [stripTopEntry, hd]
        rw [hentry]
        simp only [rrFold]
        cases hs : rrStep s k v with
        | error e => rfl
        | ok s2 => exact ih s2
    · have hcons : stripTop ((k, v) :: rest) = stripTop rest := by
        simp [stripTop, List.filter_cons, hk]
      rw [hcons, ih s]
      conv_rhs => rw [rrFold]
      rw [rrStep_unknown s k v (by simpa using hk)]

/-- C10: decoding a response object is oblivious to unrecognized keys, at
the top level and inside the `data` object: removing them changes
nothing about the decode result. -/
theorem unknown_keys_ignored (kvs : List (String × Json)) :
    decodeRisResponse (Json.obj (stripTop kvs)) = decodeRisResponse (Json.obj kvs) := by
  simp only [decodeRisResponse, rrFold_strip]
